import Mathlib

/-!
Shallow embedding of the AionUi agent-session core:
`GeminiAgentManager` (src/process/task/GeminiAgentManager.ts),
`ConversationToolConfig` (src/agent/gemini/cli/tools/conversation-tool-config.ts),
the MCP server data model (src/common/storage.ts),
the confirmation-outcome table (src/renderer/messages/MessageToolGroup.tsx)
and the model-capability resolution with its memoization cache.
-/

namespace AionUi

/-! ## Tool confirmation outcomes (renderer/types/tool-confirmation, MessageToolGroup.tsx) -/

inductive ToolConfirmationOutcome
  | ProceedOnce
  | ProceedAlways
  | ProceedAlwaysTool
  | ProceedAlwaysServer
  | Cancel
deriving DecidableEq

/-- `confirmationDetails` variants of a tool-call record (edit | exec | info | mcp). -/
inductive ConfirmationDetails
  | edit
  | exec
  | info
  | mcp (toolName serverName : String)
deriving DecidableEq

/-- Outcome values offered by `useConfirmationButtons` in MessageToolGroup.tsx:
the `switch (confirmationDetails.type)` pushes one option list per category,
with `mcp` handled by the `default` branch. Labels are i18n strings and are
not modelled; the outcome values are. -/
def useConfirmationButtons : Option ConfirmationDetails → List ToolConfirmationOutcome
  | none => []
  | some .edit => [.ProceedOnce, .ProceedAlways, .Cancel]
  | some .exec => [.ProceedOnce, .ProceedAlways, .Cancel]
  | some .info => [.ProceedOnce, .ProceedAlways, .Cancel]
  | some (.mcp _ _) => [.ProceedOnce, .ProceedAlwaysTool, .ProceedAlwaysServer, .Cancel]

/-! ## Provider / model data model (src/common/storage.ts) -/

inductive ModelType
  | text
  | vision
  | function_calling
  | web_search
  | reasoning
  | embedding
  | rerank
  | excludeFromPrimary
deriving DecidableEq

structure ModelCapability where
  type : ModelType
  isUserSelected : Option Bool
deriving DecidableEq

structure IProvider where
  id : String
  platform : String
  name : String
  baseUrl : String
  apiKey : String
  model : List String
  capabilities : Option (List ModelCapability)
  contextLimit : Option Nat
deriving DecidableEq

/-- `TProviderWithModel = Omit<IProvider, 'model'> & { useModel: string }`. -/
structure TProviderWithModel where
  id : String
  platform : String
  name : String
  baseUrl : String
  apiKey : String
  useModel : String
  capabilities : Option (List ModelCapability)
  contextLimit : Option Nat
deriving DecidableEq

/-! ## MCP server data model (src/common/storage.ts) -/

inductive McpStatus
  | connected
  | disconnected
  | error
  | testing
deriving DecidableEq

inductive IMcpServerTransport
  | stdio (command : String) (args : Option (List String)) (env : Option (List (String × String)))
  | sse (url : String) (headers : Option (List (String × String)))
  | http (url : String) (headers : Option (List (String × String)))
  | streamable_http (url : String) (headers : Option (List (String × String)))
deriving DecidableEq

structure IMcpServer where
  id : String
  name : String
  description : Option String
  enabled : Bool
  transport : IMcpServerTransport
  status : Option McpStatus
deriving DecidableEq

/-- The per-server shape handed to aioncli-core (`UiMcpServerConfig` in
GeminiAgentManager.ts): `args || []`, `env || {}`. -/
structure UiMcpServerConfig where
  command : String
  args : List String
  env : List (String × String)
  description : Option String
deriving DecidableEq

/-- The body of the `forEach` in `getMcpServers`: a server contributes an entry
exactly when its transport is stdio, with `args || []` and `env || {}` defaults. -/
def uiConfigOfServer (s : IMcpServer) : Option UiMcpServerConfig :=
  match s.transport with
  | .stdio command args env =>
      some { command := command, args := args.getD [], env := env.getD [],
             description := s.description }
  | _ => none

/-- One `forEach` step: `mcpConfig[server.name] = {...}` for stdio servers,
no-op otherwise.  A JS object assignment overwrites an earlier entry with the
same name. -/
def insertServer (acc : String → Option UiMcpServerConfig) (s : IMcpServer)
    (k : String) : Option UiMcpServerConfig :=
  match uiConfigOfServer s with
  | some cfg => if k = s.name then some cfg else acc k
  | none => acc k

/-- `GeminiAgentManager.getMcpServers`: reads the stored `mcp.config` list
(`none` models a missing / non-array value, and the catch-all error branch,
all of which yield an empty map), keeps servers with `enabled &&
status === 'connected'`, then assigns `mcpConfig[server.name] = {...}` for the
stdio ones.  The resulting JS object is modelled by its lookup function;
a later assignment to the same name overwrites an earlier one, as in JS. -/
def getMcpServers (stored : Option (List IMcpServer)) : String → Option UiMcpServerConfig :=
  match stored with
  | none => fun _ => none
  | some mcpServers =>
      (mcpServers.filter
          (fun s => s.enabled && decide (s.status = some McpStatus.connected))).foldl
        insertServer (fun _ => none)

/-! ## ConversationToolConfig (src/agent/gemini/cli/tools/conversation-tool-config.ts) -/

/-- aioncli-core `AuthType` values used by this code. -/
inductive AuthType
  | LOGIN_WITH_GOOGLE
  | USE_GEMINI
  | USE_VERTEX_AI
  | CLOUD_SHELL
  | USE_OPENAI
deriving DecidableEq

structure ConversationToolConfigOptions where
  proxy : String
  webSearchEngine : Option String
deriving DecidableEq

/-- The mutable fields of a `ConversationToolConfig` instance.  The dedicated
Config / GeminiClient handles are modelled by presence flags. -/
structure ConversationToolConfig where
  useGeminiWebSearch : Bool
  useAionuiWebFetch : Bool
  geminiModel : Option TProviderWithModel
  excludeTools : List String
  dedicatedGeminiClient : Bool
  dedicatedConfig : Bool
  webSearchEngine : String
deriving DecidableEq

/-- The class constructor: every field gets its initializer, and
`webSearchEngine = options.webSearchEngine ?? 'default'` is captured once. -/
def mkConversationToolConfig (options : ConversationToolConfigOptions) : ConversationToolConfig :=
  { useGeminiWebSearch := false
    useAionuiWebFetch := false
    geminiModel := none
    excludeTools := []
    dedicatedGeminiClient := false
    dedicatedConfig := false
    webSearchEngine := options.webSearchEngine.getD "default" }

/-- `initializeForConversation(authType)`: always activates the AionUi fetch
override and excludes `web_fetch`; activates the custom Google web search
(and excludes `google_web_search`) only when the captured engine preference is
`'google'` and the auth type is `USE_OPENAI`. -/
def initializeForConversation (authType : AuthType) (s : ConversationToolConfig) :
    ConversationToolConfig :=
  let s := { s with useAionuiWebFetch := true, excludeTools := s.excludeTools ++ ["web_fetch"] }
  if s.webSearchEngine = "google" ∧ authType = AuthType.USE_OPENAI then
    { s with useGeminiWebSearch := true,
             excludeTools := s.excludeTools ++ ["google_web_search"] }
  else s

/-- The record returned by `getConfig()`. -/
structure ToolConfigView where
  useGeminiWebSearch : Bool
  useAionuiWebFetch : Bool
  geminiModel : Option TProviderWithModel
  excludeTools : List String
deriving DecidableEq

def getConfig (s : ConversationToolConfig) : ToolConfigView :=
  { useGeminiWebSearch := s.useGeminiWebSearch
    useAionuiWebFetch := s.useAionuiWebFetch
    geminiModel := s.geminiModel
    excludeTools := s.excludeTools }

/-- `findBestGeminiModel`: returns a dedicated Gemini model record when the
captured engine preference is `'google'`, else `null`.  The `uuid()` call is
an external effect, passed in as `freshId`. -/
def findBestGeminiModel (freshId : String) (s : ConversationToolConfig) :
    Option TProviderWithModel :=
  if s.webSearchEngine = "google" then
    some { id := freshId, name := "Gemini Google Auth", platform := "gemini-with-google-auth",
           baseUrl := "", apiKey := "", useModel := "gemini-2.5-flash",
           capabilities := none, contextLimit := none }
  else none

/-- External effects of one `registerCustomTools` call: the `uuid()` value used
for the dedicated model, and whether `dedicatedConfig.initialize()` /
`refreshAuth` succeed (on failure the outer catch swallows the error, leaving
`geminiModel` / `dedicatedConfig` already assigned but no client). -/
structure RegisterOracle where
  freshId : String
  initOk : Bool
deriving DecidableEq

/-- State effect of `registerCustomTools`: only the dedicated-client fields are
written; the flags, the exclude list and the captured engine preference are
never touched.  Tool-registry registration itself is an external effect. -/
def registerCustomTools (o : RegisterOracle) (s : ConversationToolConfig) :
    ConversationToolConfig :=
  if s.useGeminiWebSearch then
    if s.dedicatedConfig then s
    else
      match findBestGeminiModel o.freshId s with
      | some gm =>
          let s := { s with geminiModel := some gm, dedicatedConfig := true }
          if o.initOk then { s with dedicatedGeminiClient := true } else s
      | none => s
  else s

/-- Operations that can happen after bootstrap within one conversation,
including edits to the *global* search-engine preference, which the
conversation-scoped config never re-reads. -/
inductive ConversationOp
  | getConfigCall
  | register (o : RegisterOracle)
  | setGlobalSearchEngine (pref : String)

/-- Global config store (the search-engine preference) next to the
conversation-scoped tool config. -/
structure ConversationWorld where
  globalSearchEngine : String
  toolConfig : ConversationToolConfig

def applyConversationOp : ConversationOp → ConversationWorld → ConversationWorld
  | .getConfigCall, w => w
  | .register o, w => { w with toolConfig := registerCustomTools o w.toolConfig }
  | .setGlobalSearchEngine p, w => { w with globalSearchEngine := p }

def applyConversationOps (ops : List ConversationOp) (w : ConversationWorld) :
    ConversationWorld :=
  ops.foldl (fun w op => applyConversationOp op w) w

/-! ## GeminiAgentManager (src/process/task/GeminiAgentManager.ts) -/

/-- Conversation / manager status values of the {idle → pending → running →
finished | error} state machine. -/
inductive AgentStatus
  | idle
  | pending
  | running
  | finished
  | error
deriving DecidableEq

/-- A canonical message record (`TMessage`): the fields the manager writes for
an outbound user message, and an opaque content payload. -/
structure TMessage where
  id : String
  type : String
  position : String
  conversation_id : String
  content : String
deriving DecidableEq

/-- The `'gemini.message'` event shape coming from the subprocess
(`IResponseMessage`): `{type, data, msg_id, conversation_id}` with an opaque
data payload. -/
structure GeminiEvent where
  type : String
  data : String
  msg_id : String
  conversation_id : String
deriving DecidableEq

/-- Observable effects of the `'gemini.message'` listener installed by
`init()`: persisting via `addOrUpdateMessage(conversation_id, msg, 'gemini')`
and forwarding via `ipcBridge.geminiConversation.responseStream.emit`. -/
inductive HandlerAction
  | persist (conversation_id : String) (msg : TMessage)
  | forward (ev : GeminiEvent)
deriving DecidableEq

/-- The status updates at the top of the listener: `finish` sets `finished`,
`start` sets `running`; both assignments are unconditional on the current
status. -/
def statusAfterEvent (status : AgentStatus) (t : String) : AgentStatus :=
  let status := if t = "finish" then AgentStatus.finished else status
  if t = "start" then AgentStatus.running else status

/-- The `'gemini.message'` listener body.  `transform` is
`transformMessage` from common/chatLib and `previewOpen` is
`handlePreviewOpenEvent` from process/utils/previewUtils; both live outside
the embedded sources and are taken as parameters.  After the status updates,
a preview-open event is consumed; otherwise `conversation_id` is overwritten,
transient types (`thought`, `finished`) skip the transform, other types are
persisted when the transform yields a message, and the (stamped) event is
always forwarded. -/
def handleGeminiMessage (transform : GeminiEvent → Option TMessage)
    (previewOpen : GeminiEvent → Bool) (conversation_id : String)
    (status : AgentStatus) (data : GeminiEvent) : AgentStatus × List HandlerAction :=
  let status := statusAfterEvent status data.type
  if previewOpen data then (status, [])
  else
    let data := { data with conversation_id := conversation_id }
    let acts :=
      if data.type = "thought" ∨ data.type = "finished" then []
      else
        match transform data with
        | some m => [HandlerAction.persist conversation_id m]
        | none => []
    (status, acts ++ [HandlerAction.forward data])

/-- The user message literal built at the top of `sendMessage`. -/
def userMessage (conversation_id input msg_id : String) : TMessage :=
  { id := msg_id, type := "text", position := "right",
    conversation_id := conversation_id, content := input }

/-- Outcome of awaiting the bootstrap promise. -/
inductive BootstrapResult
  | ok
  | failed (errMsg : String)
deriving DecidableEq

/-- Observable steps of one `sendMessage` call, in program order:
`addMessage`, the `this.status = 'pending'` write, awaiting `this.bootstrap`,
the catch branch's `this.emit('gemini.message', {type:'error', ...})`,
the `nextTickToLocalFinish` synchronization, `super.sendMessage` and the
rejection of the returned promise. -/
inductive SendAction
  | persistUserMessage (conversation_id : String) (msg : TMessage)
  | setStatus (s : AgentStatus)
  | awaitBootstrap
  | emitErrorEvent (msg_id : String) (data : String)
  | awaitLocalSync
  | forwardToAgent (input : String) (msg_id : String)
  | rejectPromise (errMsg : String)
deriving DecidableEq

/-- Trace of `sendMessage({input, msg_id})`.  The synchronous prefix persists
the user message and sets status to pending, then the call awaits bootstrap.
On success the input is forwarded to the subprocess; on rejection the catch
emits one error event tagged with the message id, waits for local persistence
to settle (`nextTickToLocalFinish`) and only then rejects, and the following
`.then` is skipped. -/
def sendMessageTrace (conversation_id input msg_id : String)
    (bootstrap : BootstrapResult) : List SendAction :=
  [SendAction.persistUserMessage conversation_id (userMessage conversation_id input msg_id),
   SendAction.setStatus AgentStatus.pending,
   SendAction.awaitBootstrap] ++
  match bootstrap with
  | .ok => [SendAction.forwardToAgent input msg_id]
  | .failed e =>
      [SendAction.emitErrorEvent msg_id e,
       SendAction.awaitLocalSync,
       SendAction.rejectPromise e]

/-! ## Model capability resolution (src/unnamed/part_001: hasModelCapability) -/

/-- Character class of `getBaseModelName` (lowercase letters, digits, dot,
slash, dash), applied after lowercasing. -/
def isAllowedChar (c : Char) : Bool :=
  (('a' ≤ c) && (c ≤ 'z')) || (('0' ≤ c) && (c ≤ '9')) || c == '.' || c == '/' || c == '-'

/-- The dash-run replace of `getBaseModelName`: collapse each run of dashes
to a single dash. -/
def collapseDashes : List Char → List Char
  | [] => []
  | [c] => [c]
  | a :: b :: rest =>
      if a = '-' ∧ b = '-' then collapseDashes (b :: rest)
      else a :: collapseDashes (b :: rest)

/-- The boundary-dash replace of `getBaseModelName`: strip one leading and one
trailing dash (after collapsing, runs are single so `dropWhile` is
equivalent). -/
def trimDashes (l : List Char) : List Char :=
  ((l.dropWhile (· == '-')).reverse.dropWhile (· == '-')).reverse

/-- `getBaseModelName`: lowercase, replace every char outside the allowed
class with `-`, collapse dash runs, strip boundary dashes. -/
def getBaseModelName (modelName : String) : List Char :=
  let chars := modelName.data.map Char.toLower
  trimDashes (collapseDashes (chars.map (fun c => if isAllowedChar c then c else '-')))

/-- Unanchored substring test: how an alternation-of-literals regex under `/i`
behaves on the already-lowercased base model name. -/
def containsSubstr (hay pat : List Char) : Bool :=
  (List.range (hay.length + 1)).any (fun i => pat.isPrefixOf (hay.drop i))

def matchesAny (name : List Char) (lits : List String) : Bool :=
  lits.any (fun l => containsSubstr name l.data)

/-- Test for `p1.*p2` (unanchored): some occurrence of `p1` followed, anywhere
later, by `p2`.  Base model names contain no newline, so `.` is any char. -/
def containsSeq (name : List Char) (p1 p2 : String) : Bool :=
  (List.range (name.length + 1)).any (fun i =>
    p1.data.isPrefixOf (name.drop i) && containsSubstr (name.drop (i + p1.length)) p2.data)

/-- `CAPABILITY_PATTERNS`, one regex per capability type, evaluated on the
base model name.  All patterns are alternations of literals except the two
`gemini-.*-pro` / `gemini-.*-flash` branches of `vision` and the `^text-`
anchored branch of `embedding`. -/
def capabilityPattern (t : ModelType) (name : List Char) : Bool :=
  match t with
  | .text => matchesAny name ["gpt", "claude", "gemini", "qwen", "llama", "mistral", "deepseek"]
  | .vision =>
      matchesAny name ["4o", "claude-3"] || containsSeq name "gemini-" "-pro"
        || containsSeq name "gemini-" "-flash"
        || matchesAny name ["gemini-2.0", "qwen-vl", "llava", "vision"]
  | .function_calling => matchesAny name ["gpt-4", "claude-3", "gemini", "qwen", "deepseek"]
  | .web_search => matchesAny name ["search", "perplexity"]
  | .reasoning => matchesAny name ["o1-", "reasoning", "think"]
  | .embedding =>
      "text-".data.isPrefixOf name
        || matchesAny name ["embed", "bge-", "e5-", "llm2vec", "retrieval", "uae-", "gte-",
            "jina-clip", "jina-embeddings", "voyage-"]
  | .rerank => matchesAny name ["rerank", "re-rank", "re-ranker", "re-ranking", "retrieval",
      "retriever"]
  | .excludeFromPrimary => matchesAny name ["dall-e", "flux", "stable-diffusion", "midjourney",
      "flash-image", "embed", "rerank"]

/-- `CAPABILITY_EXCLUSIONS`: the blacklist regex list per capability type.
In the source the `function_calling` entries `aqa(?:-[\\w-]+)?`,
`imagen(?:-[\\w-]+)?` and `gemini-1(?:\\.[\\w-]+)?` have an optional trailing
group, so as unanchored tests they are equivalent to substring tests of their
mandatory head. -/
def capabilityExclusionList (t : ModelType) : List (List Char → Bool) :=
  match t with
  | .vision => [fun n => matchesAny n ["embed", "rerank", "dall-e", "flux", "stable-diffusion"]]
  | .function_calling =>
      [fun n => containsSubstr n "aqa".data,
       fun n => containsSubstr n "imagen".data,
       fun n => containsSubstr n "o1-mini".data,
       fun n => containsSubstr n "o1-preview".data,
       fun n => containsSubstr n "gemini-1".data,
       fun n => containsSubstr n "dall-e".data,
       fun n => containsSubstr n "embed".data,
       fun n => containsSubstr n "rerank".data]
  | _ => []

/-- `toLowerCase()` as a character-wise map (ASCII, which is all the provider
table keys and capability literals use). -/
def lowerString (s : String) : String :=
  String.mk (s.data.map Char.toLower)

/-- `PROVIDER_CAPABILITY_RULES[provider?.toLowerCase()]?.[type] ?? null`:
fixed tables for `anthropic` and `deepseek`, `none` models `null`. -/
def providerCapabilityRule (provider : String) (t : ModelType) : Option Bool :=
  if lowerString provider = "anthropic" then
    match t with
    | .text => some true
    | .vision => some true
    | .function_calling => some true
    | _ => some false
  else if lowerString provider = "deepseek" then
    match t with
    | .text => some true
    | .vision => none
    | .function_calling => some true
    | .reasoning => none
    | _ => some false
  else none

/-- `getUserSelectedCapability`: `model.capabilities?.find(cap => cap.type ===
type)?.isUserSelected` — `none` when there is no capabilities list, no entry
of that type, or the entry's `isUserSelected` is undefined. -/
def getUserSelectedCapability (model : IProvider) (t : ModelType) : Option Bool :=
  match model.capabilities with
  | none => none
  | some caps =>
      match caps.find? (fun cap => decide (cap.type = t)) with
      | none => none
      | some cap => cap.isUserSelected

def modelTypeToString : ModelType → String
  | .text => "text"
  | .vision => "vision"
  | .function_calling => "function_calling"
  | .web_search => "web_search"
  | .reasoning => "reasoning"
  | .embedding => "embedding"
  | .rerank => "rerank"
  | .excludeFromPrimary => "excludeFromPrimary"

/-- `JSON.stringify` of one capability entry; an undefined `isUserSelected`
property is omitted. -/
def stringifyCapability (cap : ModelCapability) : String :=
  "\x7b\"type\":\"" ++ modelTypeToString cap.type ++ "\"" ++
    (match cap.isUserSelected with
     | none => ""
     | some b => ",\"isUserSelected\":" ++ (if b then "true" else "false")) ++ "\x7d"

/-- `JSON.stringify(model.capabilities)`; `''` when the list is undefined. -/
def capabilitiesHash (model : IProvider) : String :=
  match model.capabilities with
  | none => ""
  | some caps => "[" ++ String.intercalate "," (caps.map stringifyCapability) ++ "]"

/-- The memoization key: `` `${model.id}-${model.platform}-${type}-${capabilitiesHash}` ``.
Note the model-name list `model.model` is not part of the key. -/
def cacheKey (model : IProvider) (t : ModelType) : String :=
  model.id ++ "-" ++ model.platform ++ "-" ++ modelTypeToString t ++ "-" ++ capabilitiesHash model

/-- The uncached three-tier resolution inside `hasModelCapability`:
user-selected capability, then provider rule, then blacklist-before-whitelist
regex matching over the platform's model names (`some true` when any name
matches, `none` otherwise). -/
def computeModelCapability (model : IProvider) (t : ModelType) : Option Bool :=
  match getUserSelectedCapability model t with
  | some b => some b
  | none =>
      match providerCapabilityRule model.platform t with
      | some b => some b
      | none =>
          let hasSupport := model.model.any (fun modelName =>
            let baseModelName := getBaseModelName modelName
            !((capabilityExclusionList t).any (fun p => p baseModelName))
              && capabilityPattern t baseModelName)
          if hasSupport then some true else none

/-- `modelCapabilitiesCache : Map<string, boolean | undefined>`, modelled as an
association list; the stored value is itself an `Option Bool`. -/
abbrev ModelCapabilitiesCache := List (String × Option Bool)

/-- `cache.has(key)` / `cache.get(key)` combined: `some v` when the key is
present with stored value `v`, `none` when absent. -/
def cacheFind : ModelCapabilitiesCache → String → Option (Option Bool)
  | [], _ => none
  | (k, v) :: rest, key => if key = k then some v else cacheFind rest key

/-- `hasModelCapability`: return the cached value when the key is present,
otherwise compute the three-tier resolution and store it. -/
def hasModelCapability (cache : ModelCapabilitiesCache) (model : IProvider) (t : ModelType) :
    Option Bool × ModelCapabilitiesCache :=
  let key := cacheKey model t
  match cacheFind cache key with
  | some v => (v, cache)
  | none =>
      let result := computeModelCapability model t
      (result, (key, result) :: cache)

/-! ## Sample values used by witnesses and counterexamples -/

/-- A provider whose platform has no provider rule and whose single model name
matches the `text` pattern. -/
def gptProvider : IProvider :=
  { id := "x", platform := "zzz", name := "A", baseUrl := "", apiKey := "",
    model := ["gpt-4"], capabilities := none, contextLimit := none }

/-- Same id, platform and capabilities as `gptProvider` — hence the same cache
key — but an empty model-name list. -/
def emptyModelProvider : IProvider :=
  { id := "x", platform := "zzz", name := "B", baseUrl := "", apiKey := "",
    model := [], capabilities := none, contextLimit := none }

def sampleStdioServer : IMcpServer :=
  { id := "1", name := "local", description := some "d", enabled := true,
    transport := .stdio "run" (some ["-a"]) none, status := some .connected }

def sampleHttpServer : IMcpServer :=
  { id := "2", name := "remote", description := none, enabled := true,
    transport := .http "u" none, status := some .connected }

def sampleDisabledServer : IMcpServer :=
  { id := "3", name := "off", description := none, enabled := false,
    transport := .stdio "run" none none, status := some .connected }

def sampleThoughtEvent : GeminiEvent :=
  { type := "thought", data := "…", msg_id := "m", conversation_id := "other" }

def sampleTextEvent : GeminiEvent :=
  { type := "content", data := "hello", msg_id := "m", conversation_id := "other" }

def sampleFinishEvent : GeminiEvent :=
  { type := "finish", data := "", msg_id := "m", conversation_id := "c" }

/-- A transform that drops every event (used only to instantiate witnesses). -/
def dropAllTransform : GeminiEvent → Option TMessage := fun _ => none

/-- A preview predicate that intercepts nothing. -/
def noPreview : GeminiEvent → Bool := fun _ => false

/-! ## Theorems -/

/-- C7: the confirmation outcome vocabulary is determined solely by the
confirmation category: `edit`, `exec` and `info` offer exactly
ProceedOnce, ProceedAlways, Cancel; `mcp` offers exactly ProceedOnce,
ProceedAlwaysTool, ProceedAlwaysServer, Cancel. -/
theorem confirmation_outcomes_by_category (toolName serverName : String) :
    useConfirmationButtons (some ConfirmationDetails.edit)
        = [ToolConfirmationOutcome.ProceedOnce, ToolConfirmationOutcome.ProceedAlways,
           ToolConfirmationOutcome.Cancel]
    ∧ useConfirmationButtons (some ConfirmationDetails.exec)
        = [ToolConfirmationOutcome.ProceedOnce, ToolConfirmationOutcome.ProceedAlways,
           ToolConfirmationOutcome.Cancel]
    ∧ useConfirmationButtons (some ConfirmationDetails.info)
        = [ToolConfirmationOutcome.ProceedOnce, ToolConfirmationOutcome.ProceedAlways,
           ToolConfirmationOutcome.Cancel]
    ∧ useConfirmationButtons (some (ConfirmationDetails.mcp toolName serverName))
        = [ToolConfirmationOutcome.ProceedOnce, ToolConfirmationOutcome.ProceedAlwaysTool,
           ToolConfirmationOutcome.ProceedAlwaysServer, ToolConfirmationOutcome.Cancel] :=
  ⟨rfl, rfl, rfl, rfl⟩

/-- C8: after `initializeForConversation(authType)`, the AionUi fetch override
is active with `web_fetch` excluded for every auth type and preference, and
the custom web-search tool is active (with `google_web_search` excluded) iff
the conversation's search-engine preference is `'google'` and the platform
family is `USE_OPENAI`. -/
theorem initializeForConversation_activation (options : ConversationToolConfigOptions)
    (authType : AuthType) :
    (initializeForConversation authType (mkConversationToolConfig options)).useAionuiWebFetch = true
    ∧ "web_fetch" ∈ (initializeForConversation authType (mkConversationToolConfig options)).excludeTools
    ∧ ((initializeForConversation authType (mkConversationToolConfig options)).useGeminiWebSearch = true
        ↔ options.webSearchEngine = some "google" ∧ authType = AuthType.USE_OPENAI)
    ∧ ("google_web_search" ∈ (initializeForConversation authType (mkConversationToolConfig options)).excludeTools
        ↔ options.webSearchEngine = some "google" ∧ authType = AuthType.USE_OPENAI) := by
  cases ho : options.webSearchEngine with
  | none =>
      simp [initializeForConversation, mkConversationToolConfig, ho]
  | some e =>
      by_cases he : e = "google"
      · subst he
        cases authType <;>
          simp [initializeForConversation, mkConversationToolConfig, ho]
      · simp [initializeForConversation, mkConversationToolConfig, ho, he]

/-- `registerCustomTools` only writes the dedicated-client fields; the
activation flags and the exclude list are untouched. -/
theorem registerCustomTools_preserves_view (o : RegisterOracle) (s : ConversationToolConfig) :
    (registerCustomTools o s).useGeminiWebSearch = s.useGeminiWebSearch
    ∧ (registerCustomTools o s).useAionuiWebFetch = s.useAionuiWebFetch
    ∧ (registerCustomTools o s).excludeTools = s.excludeTools := by
  refine ⟨?_, ?_, ?_⟩ <;>
    (unfold registerCustomTools; repeat' split) <;> rfl

/-- Every post-bootstrap operation — `getConfig` calls, `registerCustomTools`
runs, and edits of the global search-engine preference — preserves the
conversation-scoped flags and exclude list. -/
theorem applyConversationOps_preserves_view (ops : List ConversationOp) (w : ConversationWorld) :
    (applyConversationOps ops w).toolConfig.useGeminiWebSearch = w.toolConfig.useGeminiWebSearch
    ∧ (applyConversationOps ops w).toolConfig.useAionuiWebFetch = w.toolConfig.useAionuiWebFetch
    ∧ (applyConversationOps ops w).toolConfig.excludeTools = w.toolConfig.excludeTools := by
  induction ops generalizing w with
  | nil => exact ⟨rfl, rfl, rfl⟩
  | cons op ops ih =>
      have hrest := ih (applyConversationOp op w)
      have hstep : (applyConversationOp op w).toolConfig.useGeminiWebSearch
            = w.toolConfig.useGeminiWebSearch
          ∧ (applyConversationOp op w).toolConfig.useAionuiWebFetch
            = w.toolConfig.useAionuiWebFetch
          ∧ (applyConversationOp op w).toolConfig.excludeTools
            = w.toolConfig.excludeTools := by
        cases op with
        | getConfigCall => exact ⟨rfl, rfl, rfl⟩
        | register o => exact registerCustomTools_preserves_view o w.toolConfig
        | setGlobalSearchEngine p => exact ⟨rfl, rfl, rfl⟩
      have hfold : applyConversationOps (op :: ops) w
          = applyConversationOps ops (applyConversationOp op w) := rfl
      rw [hfold]
      exact ⟨hrest.1.trans hstep.1, hrest.2.1.trans hstep.2.1, hrest.2.2.trans hstep.2.2⟩

/-- C9: once resolved at bootstrap, `getConfig()` returns the same exclude
list and activation flags after any sequence of later operations in the
conversation, including changes to the global search-engine preference — the
preference is captured at construction and never re-read. -/
theorem getConfig_immutable_after_bootstrap (options : ConversationToolConfigOptions)
    (authType : AuthType) (g0 : String) (ops : List ConversationOp) :
    (getConfig (applyConversationOps ops
        { globalSearchEngine := g0,
          toolConfig := initializeForConversation authType
            (mkConversationToolConfig options) }).toolConfig).excludeTools
      = (getConfig (initializeForConversation authType
          (mkConversationToolConfig options))).excludeTools
    ∧ (getConfig (applyConversationOps ops
        { globalSearchEngine := g0,
          toolConfig := initializeForConversation authType
            (mkConversationToolConfig options) }).toolConfig).useAionuiWebFetch
      = (getConfig (initializeForConversation authType
          (mkConversationToolConfig options))).useAionuiWebFetch
    ∧ (getConfig (applyConversationOps ops
        { globalSearchEngine := g0,
          toolConfig := initializeForConversation authType
            (mkConversationToolConfig options) }).toolConfig).useGeminiWebSearch
      = (getConfig (initializeForConversation authType
          (mkConversationToolConfig options))).useGeminiWebSearch := by
  have h := applyConversationOps_preserves_view ops
    { globalSearchEngine := g0,
      toolConfig := initializeForConversation authType (mkConversationToolConfig options) }
  exact ⟨h.2.2, h.2.1, h.1⟩

/-- C1: `sendMessage` persists the user message (id = msg_id, type text,
position right, stamped with the conversation id) and sets status to pending
strictly before awaiting bootstrap, and any forward of the input to the
subprocess occurs strictly after those steps. -/
theorem sendMessage_persist_before_forward (cid input msg_id : String)
    (bootstrap : BootstrapResult) :
    (sendMessageTrace cid input msg_id bootstrap).take 3
      = [SendAction.persistUserMessage cid
           { id := msg_id, type := "text", position := "right",
             conversation_id := cid, content := input },
         SendAction.setStatus AgentStatus.pending,
         SendAction.awaitBootstrap]
    ∧ ∀ i, (sendMessageTrace cid input msg_id bootstrap).get? i
          = some (SendAction.forwardToAgent input msg_id) → 3 ≤ i := by
  cases bootstrap with
  | ok =>
      refine ⟨rfl, ?_⟩
      intro i h
      match i with
      | 0 => simp [sendMessageTrace, userMessage] at h
      | 1 => simp [sendMessageTrace] at h
      | 2 => simp [sendMessageTrace] at h
      | n + 3 => exact Nat.le_add_left 3 n
  | failed e =>
      refine ⟨rfl, ?_⟩
      intro i h
      match i with
      | 0 => simp [sendMessageTrace, userMessage] at h
      | 1 => simp [sendMessageTrace] at h
      | 2 => simp [sendMessageTrace] at h
      | n + 3 => exact Nat.le_add_left 3 n

theorem sendMessage_persist_before_forward_witness :
    (sendMessageTrace "c" "hi" "m1" BootstrapResult.ok).get? 3
        = some (SendAction.forwardToAgent "hi" "m1")
    ∧ 3 ≤ 3 :=
  ⟨rfl, (sendMessage_persist_before_forward "c" "hi" "m1" BootstrapResult.ok).2 3 rfl⟩

/-- C2: when bootstrap rejects, the `sendMessage` trace emits exactly one
error event carrying the call's msg_id, and every rejection of the returned
promise is preceded by that error event and then by the local-persistence
synchronization step. -/
theorem sendMessage_bootstrap_failure (cid input msg_id e : String) :
    (sendMessageTrace cid input msg_id (BootstrapResult.failed e)).countP
        (fun a => match a with
          | SendAction.emitErrorEvent m _ => decide (m = msg_id)
          | _ => false) = 1
    ∧ ∀ k, (sendMessageTrace cid input msg_id (BootstrapResult.failed e)).get? k
          = some (SendAction.rejectPromise e) →
        ∃ i j, i < j ∧ j < k ∧
          (sendMessageTrace cid input msg_id (BootstrapResult.failed e)).get? i
            = some (SendAction.emitErrorEvent msg_id e) ∧
          (sendMessageTrace cid input msg_id (BootstrapResult.failed e)).get? j
            = some SendAction.awaitLocalSync := by
  refine ⟨?_, ?_⟩
  · simp [sendMessageTrace, List.countP_cons]
  · intro k h
    match k with
    | 0 => simp [sendMessageTrace, userMessage] at h
    | 1 => simp [sendMessageTrace] at h
    | 2 => simp [sendMessageTrace] at h
    | 3 => simp [sendMessageTrace] at h
    | 4 => simp [sendMessageTrace] at h
    | 5 => exact ⟨3, 4, by omega, by omega, rfl, rfl⟩
    | n + 6 => simp [sendMessageTrace] at h

theorem sendMessage_bootstrap_failure_witness :
    (sendMessageTrace "c" "hi" "m1" (BootstrapResult.failed "boom")).get? 5
        = some (SendAction.rejectPromise "boom")
    ∧ ∃ i j, i < j ∧ j < 5 ∧
        (sendMessageTrace "c" "hi" "m1" (BootstrapResult.failed "boom")).get? i
          = some (SendAction.emitErrorEvent "m1" "boom") ∧
        (sendMessageTrace "c" "hi" "m1" (BootstrapResult.failed "boom")).get? j
          = some SendAction.awaitLocalSync :=
  ⟨rfl, (sendMessage_bootstrap_failure "c" "hi" "m1" "boom").2 5 rfl⟩

/-- C4 counterexample: the listener's status assignments are unconditional —
a `finish` event received while the status is `pending` moves it to
`finished`, a transition whose source state is not the claimed `running`. -/
theorem status_transition_counterexample :
    (handleGeminiMessage dropAllTransform noPreview "c" AgentStatus.pending
        sampleFinishEvent).fst = AgentStatus.finished
    ∧ AgentStatus.pending ≠ AgentStatus.running := by
  exact ⟨rfl, by decide⟩

/-- The status component of the listener is exactly `statusAfterEvent`,
independent of the preview intercept and the transform. -/
theorem handleGeminiMessage_fst (transform : GeminiEvent → Option TMessage)
    (previewOpen : GeminiEvent → Bool) (cid : String) (s : AgentStatus) (ev : GeminiEvent) :
    (handleGeminiMessage transform previewOpen cid s ev).fst = statusAfterEvent s ev.type := by
  unfold handleGeminiMessage
  split <;> rfl

/-- C4 amended: a `start` event always sets the status to `running` and a
`finish` event always sets it to `finished`, from any current status (the
assignments are unconditional); any other event type leaves the status
unchanged.  In particular pending→running on `start` and running→finished on
`finish` hold, but not only from those source states. -/
theorem status_transition_amended (transform : GeminiEvent → Option TMessage)
    (previewOpen : GeminiEvent → Bool) (cid : String) (s : AgentStatus) (ev : GeminiEvent) :
    (ev.type = "start" →
        (handleGeminiMessage transform previewOpen cid s ev).fst = AgentStatus.running)
    ∧ (ev.type = "finish" →
        (handleGeminiMessage transform previewOpen cid s ev).fst = AgentStatus.finished)
    ∧ (ev.type ≠ "start" → ev.type ≠ "finish" →
        (handleGeminiMessage transform previewOpen cid s ev).fst = s) := by
  rw [handleGeminiMessage_fst transform previewOpen cid s ev]
  refine ⟨?_, ?_, ?_⟩
  · intro h; simp [statusAfterEvent, h]
  · intro h; simp [statusAfterEvent, h]
  · intro h1 h2; simp [statusAfterEvent, h1, h2]

theorem status_transition_amended_witness :
    (sampleFinishEvent.type = "finish")
    ∧ (handleGeminiMessage dropAllTransform noPreview "c" AgentStatus.running
        sampleFinishEvent).fst = AgentStatus.finished :=
  ⟨rfl, (status_transition_amended dropAllTransform noPreview "c" AgentStatus.running
    sampleFinishEvent).2.1 rfl⟩

/-- C5: provided the event is not a preview-open event (those are consumed
earlier by `handlePreviewOpenEvent`), the transient types `thought` and
`finished` are only forwarded — never persisted — while every other type is
forwarded and persisted exactly when the transform yields a message. -/
theorem transient_vs_persistable (transform : GeminiEvent → Option TMessage)
    (previewOpen : GeminiEvent → Bool) (cid : String) (s : AgentStatus)
    (ev : GeminiEvent) (hpv : previewOpen ev = false) :
    ((ev.type = "thought" ∨ ev.type = "finished") →
        (handleGeminiMessage transform previewOpen cid s ev).snd
          = [HandlerAction.forward { ev with conversation_id := cid }])
    ∧ (ev.type ≠ "thought" → ev.type ≠ "finished" →
        HandlerAction.forward { ev with conversation_id := cid }
            ∈ (handleGeminiMessage transform previewOpen cid s ev).snd
        ∧ ∀ m, HandlerAction.persist cid m
              ∈ (handleGeminiMessage transform previewOpen cid s ev).snd
            ↔ transform { ev with conversation_id := cid } = some m) := by
  constructor
  · intro h
    simp [handleGeminiMessage, hpv, h]
  · intro h1 h2
    cases htr : transform { ev with conversation_id := cid } with
    | none => simp [handleGeminiMessage, hpv, h1, h2, htr]
    | some m0 =>
        simp [handleGeminiMessage, hpv, h1, h2, htr]
        intro m
        constructor
        · intro hm; exact hm.symm
        · intro hm; exact hm.symm

theorem transient_vs_persistable_witness :
    noPreview sampleThoughtEvent = false
    ∧ (sampleThoughtEvent.type = "thought" ∨ sampleThoughtEvent.type = "finished")
    ∧ (handleGeminiMessage dropAllTransform noPreview "c" AgentStatus.running
          sampleThoughtEvent).snd
        = [HandlerAction.forward { sampleThoughtEvent with conversation_id := "c" }] :=
  ⟨rfl, Or.inl rfl,
    (transient_vs_persistable dropAllTransform noPreview "c" AgentStatus.running
      sampleThoughtEvent rfl).1 (Or.inl rfl)⟩

/-- C6: every action the listener emits carries the manager's conversation
id: a forwarded event has `conversation_id = cid` (overwriting whatever the
raw event carried), and a persisted message is stored under `cid` and was
produced by the transform of the stamped event. -/
theorem conversation_id_stamped (transform : GeminiEvent → Option TMessage)
    (previewOpen : GeminiEvent → Bool) (cid : String) (s : AgentStatus) (ev : GeminiEvent) :
    (∀ e, HandlerAction.forward e ∈ (handleGeminiMessage transform previewOpen cid s ev).snd →
        e.conversation_id = cid)
    ∧ (∀ c m, HandlerAction.persist c m
          ∈ (handleGeminiMessage transform previewOpen cid s ev).snd →
        c = cid ∧ transform { ev with conversation_id := cid } = some m) := by
  by_cases hpv : previewOpen ev
  · constructor
    · intro e he; simp [handleGeminiMessage, hpv] at he
    · intro c m hm; simp [handleGeminiMessage, hpv] at hm
  · by_cases hty : ev.type = "thought" ∨ ev.type = "finished"
    · constructor
      · intro e he
        simp [handleGeminiMessage, hpv, hty] at he
        rw [he]
      · intro c m hm
        simp [handleGeminiMessage, hpv, hty] at hm
    · cases htr : transform { ev with conversation_id := cid } with
      | none =>
          constructor
          · intro e he
            simp [handleGeminiMessage, hpv, hty, htr] at he
            rw [he]
          · intro c m hm
            simp [handleGeminiMessage, hpv, hty, htr] at hm
      | some m0 =>
          constructor
          · intro e he
            simp [handleGeminiMessage, hpv, hty, htr] at he
            rw [he]
          · intro c m hm
            simp [handleGeminiMessage, hpv, hty, htr] at hm
            refine ⟨hm.1, ?_⟩
            rw [hm.2]

theorem conversation_id_stamped_witness :
    HandlerAction.forward { sampleTextEvent with conversation_id := "c" }
        ∈ (handleGeminiMessage dropAllTransform noPreview "c" AgentStatus.running
            sampleTextEvent).snd
    ∧ ({ sampleTextEvent with conversation_id := "c" } : GeminiEvent).conversation_id = "c" :=
  ⟨by decide,
    (conversation_id_stamped dropAllTransform noPreview "c" AgentStatus.running
        sampleTextEvent).1 { sampleTextEvent with conversation_id := "c" } (by decide)⟩

/-- A server yields a projected entry iff its transport is stdio. -/
theorem uiConfigOfServer_isSome_iff (s : IMcpServer) :
    (∃ cfg, uiConfigOfServer s = some cfg)
      ↔ ∃ c a e, s.transport = IMcpServerTransport.stdio c a e := by
  cases ht : s.transport <;> simp [uiConfigOfServer, ht]

theorem insertServer_isSome_iff (acc : String → Option UiMcpServerConfig)
    (s : IMcpServer) (k : String) :
    (∃ cfg, insertServer acc s k = some cfg)
      ↔ (s.name = k ∧ ∃ cfg, uiConfigOfServer s = some cfg) ∨ (∃ cfg, acc k = some cfg) := by
  unfold insertServer
  cases hu : uiConfigOfServer s with
  | none => simp [hu]
  | some cfg0 =>
      by_cases hk : s.name = k
      · subst hk; simp [hu]
      · have hk' : ¬(k = s.name) := fun h => hk h.symm
        simp [hu, hk, hk']

theorem foldl_insertServer_isSome_iff (l : List IMcpServer)
    (acc : String → Option UiMcpServerConfig) (k : String) :
    (∃ cfg, (l.foldl insertServer acc) k = some cfg)
      ↔ (∃ s ∈ l, s.name = k ∧ ∃ cfg, uiConfigOfServer s = some cfg)
        ∨ (∃ cfg, acc k = some cfg) := by
  induction l generalizing acc with
  | nil => simp
  | cons s l ih =>
      rw [List.foldl_cons, ih (insertServer acc s), insertServer_isSome_iff]
      constructor
      · rintro (⟨s', hs', hn, hc⟩ | (⟨hn, hc⟩ | hacc))
        · exact Or.inl ⟨s', List.mem_cons_of_mem _ hs', hn, hc⟩
        · exact Or.inl ⟨s, List.mem_cons_self s l, hn, hc⟩
        · exact Or.inr hacc
      · rintro (⟨s', hs', hn, hc⟩ | hacc)
        · rcases List.mem_cons.mp hs' with rfl | hs'
          · exact Or.inr (Or.inl ⟨hn, hc⟩)
          · exact Or.inl ⟨s', hs', hn, hc⟩
        · exact Or.inr (Or.inr hacc)

theorem foldl_insertServer_eq_some (l : List IMcpServer)
    (acc : String → Option UiMcpServerConfig) (k : String) (cfg : UiMcpServerConfig) :
    (l.foldl insertServer acc) k = some cfg →
      (∃ s ∈ l, s.name = k ∧ uiConfigOfServer s = some cfg) ∨ acc k = some cfg := by
  induction l generalizing acc with
  | nil => intro h; exact Or.inr h
  | cons s l ih =>
      intro h
      rw [List.foldl_cons] at h
      rcases ih (insertServer acc s) h with ⟨s', hs', hn, hc⟩ | h2
      · exact Or.inl ⟨s', List.mem_cons_of_mem _ hs', hn, hc⟩
      · unfold insertServer at h2
        cases hu : uiConfigOfServer s with
        | none => simp only [hu] at h2; exact Or.inr h2
        | some cfg0 =>
            simp only [hu] at h2
            by_cases hk : k = s.name
            · rw [if_pos hk] at h2
              exact Or.inl ⟨s, List.mem_cons_self s l, hk.symm, by rw [hu, h2]⟩
            · rw [if_neg hk] at h2
              exact Or.inr h2

/-- C3: the bootstrap MCP projection has an entry for a name iff the stored
list has a server of that name that is enabled, connected and uses the stdio
transport; and every entry's value is the stdio projection (command, args,
env, description) of such a server.  In particular disabled, non-connected or
sse / http / streamable_http servers contribute nothing. -/
theorem getMcpServers_projection (stored : Option (List IMcpServer)) (k : String) :
    ((∃ cfg, getMcpServers stored k = some cfg)
      ↔ ∃ servers, stored = some servers ∧ ∃ s ∈ servers, s.name = k ∧ s.enabled = true
          ∧ s.status = some McpStatus.connected
          ∧ ∃ c a e, s.transport = IMcpServerTransport.stdio c a e)
    ∧ ∀ cfg, getMcpServers stored k = some cfg →
        ∃ servers s, stored = some servers ∧ s ∈ servers ∧ s.name = k ∧ s.enabled = true
          ∧ s.status = some McpStatus.connected ∧ uiConfigOfServer s = some cfg := by
  cases stored with
  | none => simp [getMcpServers]
  | some servers =>
      constructor
      · rw [show getMcpServers (some servers)
            = (servers.filter
                (fun s => s.enabled && decide (s.status = some McpStatus.connected))).foldl
              insertServer (fun _ => none) from rfl]
        rw [foldl_insertServer_isSome_iff]
        simp only [List.mem_filter, Bool.and_eq_true, decide_eq_true_eq,
          uiConfigOfServer_isSome_iff, Option.some.injEq]
        constructor
        · rintro (⟨s, ⟨hs, he, hst⟩, hn, ht⟩ | ⟨cfg, hcfg⟩)
          · exact ⟨servers, rfl, s, hs, hn, he, hst, ht⟩
          · cases hcfg
        · rintro ⟨servers', h', s, hs, hn, he, hst, ht⟩
          cases h'
          exact Or.inl ⟨s, ⟨hs, he, hst⟩, hn, ht⟩
      · intro cfg h
        rw [show getMcpServers (some servers)
            = (servers.filter
                (fun s => s.enabled && decide (s.status = some McpStatus.connected))).foldl
              insertServer (fun _ => none) from rfl] at h
        rcases foldl_insertServer_eq_some _ _ _ _ h with ⟨s, hs, hn, hc⟩ | h2
        · rw [List.mem_filter] at hs
          have hflags := hs.2
          rw [Bool.and_eq_true, decide_eq_true_eq] at hflags
          exact ⟨servers, s, rfl, hs.1, hn, hflags.1, hflags.2, hc⟩
        · cases h2

theorem getMcpServers_projection_witness :
    getMcpServers (some [sampleStdioServer, sampleHttpServer, sampleDisabledServer]) "local"
        = some { command := "run", args := ["-a"], env := [], description := some "d" }
    ∧ ∃ servers s,
        (some [sampleStdioServer, sampleHttpServer, sampleDisabledServer]
            : Option (List IMcpServer)) = some servers
        ∧ s ∈ servers ∧ s.name = "local" ∧ s.enabled = true
        ∧ s.status = some McpStatus.connected
        ∧ uiConfigOfServer s
            = some { command := "run", args := ["-a"], env := [], description := some "d" } :=
  ⟨rfl,
    (getMcpServers_projection
      (some [sampleStdioServer, sampleHttpServer, sampleDisabledServer]) "local").2 _ rfl⟩

/-- C10 counterexample: the cache key omits the model-name list, so two
providers sharing id, platform and capabilities — but with different model
lists — collide.  After resolving `gptProvider` (model list `["gpt-4"]`,
text capability `some true`), a call for `emptyModelProvider` (empty model
list, uncached value `none`) returns the stale `some true` from the cache. -/
theorem hasModelCapability_cache_counterexample :
    (hasModelCapability (hasModelCapability [] gptProvider ModelType.text).snd
        emptyModelProvider ModelType.text).fst = some true
    ∧ computeModelCapability emptyModelProvider ModelType.text = none := by
  decide

/-- C10 amended: whenever the cache has no entry for the model's key — in
particular on a fresh cache, or when no earlier call collided on the key —
`hasModelCapability` returns exactly the uncached three-tier resolution; and
two consecutive calls with the same model and type always return equal
results. -/
theorem hasModelCapability_amended (cache : ModelCapabilitiesCache)
    (model : IProvider) (t : ModelType) :
    (cacheFind cache (cacheKey model t) = none →
        (hasModelCapability cache model t).fst = computeModelCapability model t)
    ∧ (hasModelCapability (hasModelCapability cache model t).snd model t).fst
        = (hasModelCapability cache model t).fst := by
  cases h : cacheFind cache (cacheKey model t) with
  | none =>
      constructor
      · intro _
        simp [hasModelCapability, h]
      · simp [hasModelCapability, h, cacheFind]
  | some v =>
      constructor
      · intro hnone
        cases hnone
      · simp [hasModelCapability, h]

theorem hasModelCapability_amended_witness :
    cacheFind [] (cacheKey gptProvider ModelType.text) = none
    ∧ (hasModelCapability [] gptProvider ModelType.text).fst
        = computeModelCapability gptProvider ModelType.text :=
  ⟨rfl, (hasModelCapability_amended [] gptProvider ModelType.text).1 rfl⟩

end AionUi
